import Mathlib

/-!
Verification development for the jaeger-toolkit streaming telemetry pipeline.

The Go sources embedded here:
* `pkg/model` (bundled into `src/pkg/deployment/deployment.go` as its
  second document) — the `Span`/`TraceID`/`KeyValue`/`ValueType` data
  model;
* `pkg/pipeline/processor/sampling.go` — adaptive sampling processor
  (`shouldSample`, `deterministicSample`, `isError`, `recordSample`);
* `pkg/observability` (metrics engine and health check, bundled into
  `src/pkg/config/config.go`) — `RecordProcessingTime`, `Snapshot`,
  `DropRate`, `ErrorRate`, `determineStatus`, `DefaultHealthCheckConfig`;
* `pkg/pipeline/processor/batch.go` — batch processor `Process` loop and
  the attributes processor `applyAction`.

Conventions of the embedding:
* Go `uint64` values are `Nat` (with the width 2^64 noted where it matters),
  Go `int64`/`time.Duration` values are `Int`, Go `int` counters that only
  ever grow from zero are `Nat`.
* Go `float64` rates and thresholds are modelled as exact rationals `ℚ`.
  Every concrete computation the theorems below evaluate is exact in
  `float64` as well (the values involved are small dyadic-or-decimal
  numbers and the comparisons are far from the rounding error), so the
  idealisation does not change any of the evaluated outcomes; places where
  `float64` rounding could in principle matter are flagged in comments.
* Channel-processing loops are embedded as pure functions over the list of
  values the input channel yields before it closes; cancellation and timer
  events are outside the model (the claims treated here restrict to
  executions without them).
-/

/-! ## Data model (package `pkg/model`)

The `model` package source is bundled into the staged file
`src/pkg/deployment/deployment.go` (its second document, `package model`);
the declarations here are translated from it. `time.Time` and
`time.Duration` values are nanosecond counts (`Int`), `uint64`/`uint32`
values are `Nat`, `[]byte` is a list of byte values, and Go `float64` is
an exact rational as everywhere in this file. The JSON marshalling
helpers, the hex rendering and the `NewSpan`/`NewTrace` constructors are
serialisation/convenience glue not consulted by any claim and are not
embedded. Omitted fields of a Go composite literal take their zero value;
the field defaults mirror that. -/

/-- `type ValueType string`: the kind tag of a `KeyValue` is itself a
string. -/
abbrev ValueType := String

/-- `StringType ValueType = "string"`. -/
def ValueType.stringType : ValueType := "string"

/-- `BoolType ValueType = "bool"`. -/
def ValueType.boolType : ValueType := "bool"

/-- `Int64Type ValueType = "int64"`. -/
def ValueType.int64Type : ValueType := "int64"

/-- `Float64Type ValueType = "float64"`. -/
def ValueType.float64Type : ValueType := "float64"

/-- `BinaryType ValueType = "binary"`. -/
def ValueType.binaryType : ValueType := "binary"

/-- `type SpanID uint64`. -/
abbrev SpanID := Nat

/-- `type RefType string`. -/
abbrev RefType := String

/-- `ChildOf RefType = "CHILD_OF"`. -/
def RefType.childOf : RefType := "CHILD_OF"

/-- `FollowsFrom RefType = "FOLLOWS_FROM"`. -/
def RefType.followsFrom : RefType := "FOLLOWS_FROM"

/-- `TraceID`: 128-bit trace identifier, `High`/`Low` `uint64` halves. -/
structure TraceID where
  high : Nat
  low : Nat
deriving DecidableEq

/-- `KeyValue`: a key with exactly one typed value slot used. -/
structure KeyValue where
  key : String
  vType : ValueType
  vStr : String := ""
  vInt64 : Int := 0
  vFloat64 : ℚ := 0
  vBool : Bool := false
  vBinary : List Nat := []
deriving DecidableEq

/-- `Reference`: a relationship between spans. -/
structure Reference where
  refType : RefType
  traceID : TraceID
  spanID : SpanID
deriving DecidableEq

/-- `Log`: a structured log event within a span. -/
structure Log where
  timestamp : Int
  fields : List KeyValue := []
deriving DecidableEq

/-- `Process`: the process/service that generated spans. -/
structure Process where
  serviceName : String
  tags : List KeyValue := []
deriving DecidableEq

/-- `Span`: one unit of work in a distributed trace, with the fields of
the Go struct (`*Process` becomes an optional `Process`). -/
structure Span where
  traceID : TraceID
  spanID : SpanID
  parentSpanID : SpanID := 0
  operationName : String := ""
  references : List Reference := []
  flags : Nat := 0
  startTime : Int := 0
  duration : Int := 0
  tags : List KeyValue := []
  logs : List Log := []
  process : Option Process := none
  processID : String := ""
  warnings : List String := []
deriving DecidableEq

/-! ## Sampling processor (`pkg/pipeline/processor/sampling.go`)

The mutable fields of `SamplingProcessor` guarded by its lock become a
state record threaded explicitly. The `name` field and the unused `rng`
field (dead state: the decision path is deterministic) are dropped. -/

/-- State of `SamplingProcessor`: configuration plus the adaptive window
counters. `recentErrors`/`recentTotal` are Go `int`s that start at zero and
only ever grow until reset, hence `Nat`; `adaptiveWindow` is the configured
window size. -/
structure SamplingProcessor where
  baseSampleRate : ℚ
  alwaysSampleErrors : Bool
  slowThreshold : Int
  recentErrors : Nat
  recentTotal : Nat
  adaptiveRate : ℚ
  adaptiveWindow : Nat
deriving DecidableEq

/-- `NewSamplingProcessor`: the adaptive rate starts at the base rate and
both window counters at zero. -/
def newSamplingProcessor (baseSampleRate : ℚ) (alwaysSampleErrors : Bool)
    (slowThreshold : Int) (adaptiveWindow : Nat) : SamplingProcessor :=
  { baseSampleRate := baseSampleRate
    alwaysSampleErrors := alwaysSampleErrors
    slowThreshold := slowThreshold
    recentErrors := 0
    recentTotal := 0
    adaptiveRate := baseSampleRate
    adaptiveWindow := adaptiveWindow }

/-- The file-local `func min(a, b float64)` of `sampling.go`:
`if a < b { return a }; return b`. -/
def goMin (a b : ℚ) : ℚ :=
  if a < b then a else b

/-- `isError`: scans the tag list for an `error=true` boolean tag or an
`http.status_code` int64 tag with value `>= 500`. The Go loop returns on
the first match; since the match result is `true` in both arms this is
`List.any` of the two tests. -/
def isError (span : Span) : Bool :=
  span.tags.any fun tag =>
    (decide (tag.key = "error") && decide (tag.vType = ValueType.boolType)
      && tag.vBool)
    || (decide (tag.key = "http.status_code")
      && decide (tag.vType = ValueType.int64Type) && decide (500 ≤ tag.vInt64))

/-- The threshold `uint64(float64(^uint64(0)) * rate)` of
`deterministicSample`. `float64(^uint64(0))` is the conversion of
`2^64 - 1` to `float64`, which rounds (to nearest) to exactly `2^64`;
multiplying a `float64` by `2^64` only shifts its exponent, so for any
representable `rate` the product is exactly the rational `2^64 * rate`.
The final float-to-integer conversion truncates toward zero; for a product
`≥ 2^64` (only reachable at `rate = 1.0`) the Go conversion is out of the
range of `uint64` and its result is implementation-dependent — here it is
modelled as saturating to `2^64 - 1` (the AArch64 behaviour). -/
def samplingThreshold (rate : ℚ) : Nat :=
  min (2 ^ 64 - 1) (Int.toNat ⌊(2 ^ 64 : ℚ) * rate⌋)

/-- `deterministicSample`: keep iff the low half of the trace identifier is
at most the threshold scaled from the rate. -/
def deterministicSample (traceID : TraceID) (rate : ℚ) : Bool :=
  decide (traceID.low ≤ samplingThreshold rate)

/-- `recordSample`: increments the window counters; once the total reaches
the window the adaptive rate is recomputed from the observed error ratio
(doubled base above 5% errors, 1.5x base above 1%, base otherwise, each
capped at 1.0 by `goMin`) and both counters are reset to zero.
Go computes the ratio and the two comparisons in `float64`; the rationals
here are exact, which agrees with `float64` at every ratio the theorems
below evaluate. -/
def recordSample (p : SamplingProcessor) (isErr : Bool) : SamplingProcessor :=
  let total := p.recentTotal + 1
  let errors := if isErr then p.recentErrors + 1 else p.recentErrors
  if p.adaptiveWindow ≤ total then
    let errorRate : ℚ := (errors : ℚ) / (total : ℚ)
    let newRate :=
      if 5 / 100 < errorRate then goMin 1 (p.baseSampleRate * 2)
      else if 1 / 100 < errorRate then goMin 1 (p.baseSampleRate * (15 / 10))
      else p.baseSampleRate
    { p with recentErrors := 0, recentTotal := 0, adaptiveRate := newRate }
  else
    { p with recentErrors := errors, recentTotal := total }

/-- `shouldSample`, in state-passing form: the decision together with the
state after the embedded `recordSample` call. The adaptive rate used for
the priority-3 decision is read before `recordSample` runs, exactly as in
the Go method. -/
def shouldSample (p : SamplingProcessor) (span : Span) :
    Bool × SamplingProcessor :=
  if p.alwaysSampleErrors && isError span then
    (true, recordSample p true)
  else if p.slowThreshold ≤ span.duration then
    (true, recordSample p false)
  else
    let rate := p.adaptiveRate
    let decision := deterministicSample span.traceID rate
    (decision, recordSample p (isError span))

/-! ## Metrics engine (`pkg/observability`, metrics) -/

/-- The `Metrics` tracker: five monotonic counters (`atomic.Uint64`, hence
`Nat`), the rolling latency sample buffer and its capacity. -/
structure Metrics where
  spansReceived : Nat
  spansProcessed : Nat
  spansDropped : Nat
  spansExported : Nat
  exportErrors : Nat
  processingTimes : List Int
  maxSamples : Nat
deriving DecidableEq

/-- `NewMetrics`: empty buffer, capacity 1000, all counters zero. -/
def newMetrics : Metrics :=
  { spansReceived := 0
    spansProcessed := 0
    spansDropped := 0
    spansExported := 0
    exportErrors := 0
    processingTimes := []
    maxSamples := 1000 }

/-- `RecordProcessingTime`: when the buffer already holds `maxSamples`
entries (or more), `copy(pt, pt[1:])` followed by `pt = pt[:maxSamples-1]`
keeps the first `maxSamples - 1` entries of the left-shifted buffer, after
which the new sample is appended. (With `maxSamples = 0` the Go reslice
`pt[:-1]` would panic; that state is unreachable from `NewMetrics`.) -/
def Metrics.recordProcessingTime (m : Metrics) (d : Int) : Metrics :=
  let buf :=
    if m.maxSamples ≤ m.processingTimes.length then
      (m.processingTimes.drop 1).take (m.maxSamples - 1)
    else
      m.processingTimes
  { m with processingTimes := buf ++ [d] }

/-- One pass of the nested-loop exchange sort in `Snapshot`: the inner loop
`for j := i+1; ...` compares slot `i` (running value `x`) against each later
slot, swapping when `sorted[i] > sorted[j]`. The pass returns the value left
in slot `i` (the minimum) together with the later slots as the loop leaves
them. -/
def minPass (x : Int) (xs : List Int) : Int × List Int :=
  match xs with
  | [] => (x, [])
  | y :: ys =>
    if y < x then
      let p := minPass y ys
      (p.1, x :: p.2)
    else
      let p := minPass x ys
      (p.1, y :: p.2)

theorem minPass_snd_length (x : Int) (xs : List Int) :
    (minPass x xs).2.length = xs.length := by
  induction xs generalizing x with
  | nil => rfl
  | cons y ys ih =>
    by_cases h : y < x <;> simp [minPass, h, ih]

/-- The full exchange sort of `Snapshot` (outer loop over `i`): repeatedly
run one inner pass and fix the minimum in place. -/
def sortDurations : List Int → List Int
  | [] => []
  | x :: xs => (minPass x xs).1 :: sortDurations (minPass x xs).2
termination_by l => l.length
decreasing_by
  simp only [List.length_cons, minPass_snd_length]
  omega

/-- `MetricsSnapshot`: counters plus the three derived latency
percentiles. -/
structure MetricsSnapshot where
  spansReceived : Nat
  spansProcessed : Nat
  spansDropped : Nat
  spansExported : Nat
  exportErrors : Nat
  latencyP50 : Int := 0
  latencyP95 : Int := 0
  latencyP99 : Int := 0
deriving DecidableEq

/-- `Snapshot`: copy the counters; when the buffer is non-empty, sort a
copy of it and read the three percentile ranks. Go computes the upper ranks
as `int(float64(len)*0.95)` and `int(float64(len)*0.99)`; for every length
the buffer can reach (at most 1000) those float computations are exactly
`⌊len*95/100⌋` and `⌊len*99/100⌋` — the products stay within a relative
error of about `10^-14`, far less than the distance `≥ 1/100` of any
non-integer product from the next integer, and when the exact product is an
integer the rounded `float64` product is that integer exactly. -/
def Metrics.snapshot (m : Metrics) : MetricsSnapshot :=
  let base : MetricsSnapshot :=
    { spansReceived := m.spansReceived
      spansProcessed := m.spansProcessed
      spansDropped := m.spansDropped
      spansExported := m.spansExported
      exportErrors := m.exportErrors }
  if 0 < m.processingTimes.length then
    let sorted := sortDurations m.processingTimes
    { base with
      latencyP50 := sorted.getD (sorted.length / 2) 0
      latencyP95 := sorted.getD (sorted.length * 95 / 100) 0
      latencyP99 := sorted.getD (sorted.length * 99 / 100) 0 }
  else
    base

/-- `Snapshot` in state-passing form. The Go method writes no field of the
receiver — the sort runs on the local copy `sorted` — so the state it hands
back is the input state unchanged. -/
def Metrics.snapshotS (m : Metrics) : MetricsSnapshot × Metrics :=
  (m.snapshot, m)

/-- `DropRate`: dropped over received as a percentage, `0` when nothing was
received. Go divides in `float64`; the rational is exact. -/
def MetricsSnapshot.dropRate (s : MetricsSnapshot) : ℚ :=
  if s.spansReceived = 0 then 0
  else (s.spansDropped : ℚ) / (s.spansReceived : ℚ) * 100

/-- `ErrorRate`: export errors over exported as a percentage, `0` when
nothing was exported. -/
def MetricsSnapshot.errorRate (s : MetricsSnapshot) : ℚ :=
  if s.spansExported = 0 then 0
  else (s.exportErrors : ℚ) / (s.spansExported : ℚ) * 100

/-! ## Health evaluator (`pkg/observability`, health check) -/

/-- The tri-state health status. -/
inductive HealthStatus where
  | healthy
  | degraded
  | unhealthy
deriving DecidableEq

/-- The four threshold fields of `HealthCheck` (percentages). -/
structure HealthThresholds where
  dropRateWarning : ℚ
  dropRateCritical : ℚ
  errorRateWarning : ℚ
  errorRateCritical : ℚ
deriving DecidableEq

/-- `DefaultHealthCheckConfig`: warning drop 1%, critical drop 5%, warning
error 2%, critical error 10% (the `Addr` field is transport glue and is
dropped). -/
def defaultHealthCheckConfig : HealthThresholds :=
  { dropRateWarning := 1
    dropRateCritical := 5
    errorRateWarning := 2
    errorRateCritical := 10 }

/-- `determineStatus`: critical thresholds first, then warning thresholds,
else healthy. -/
def determineStatus (h : HealthThresholds) (snapshot : MetricsSnapshot) :
    HealthStatus :=
  let dropRate := snapshot.dropRate
  let errorRate := snapshot.errorRate
  if h.dropRateCritical ≤ dropRate ∨ h.errorRateCritical ≤ errorRate then
    HealthStatus.unhealthy
  else if h.dropRateWarning ≤ dropRate ∨ h.errorRateWarning ≤ errorRate then
    HealthStatus.degraded
  else
    HealthStatus.healthy

/-! ## Batch processor (`pkg/pipeline/processor/batch.go`)

The `Process` goroutine is embedded over the executions the batch claim is
about: the input channel yields a finite list of spans and closes, the
ticker never fires first, and the context is not cancelled. The output is
the list of flushes; each flush forwards its spans downstream in order. -/

/-- The batch loop body: accumulate into `batch`, flush when the batch
reaches `sendBatchSize` spans, and on input closure flush a non-empty
remainder once. -/
def batchFlushesNoTimer (sendBatchSize : Nat) :
    List Span → List Span → List (List Span)
  | [], batch => if batch.isEmpty then [] else [batch]
  | s :: ss, batch =>
    let b := batch ++ [s]
    if sendBatchSize ≤ b.length then
      b :: batchFlushesNoTimer sendBatchSize ss []
    else
      batchFlushesNoTimer sendBatchSize ss b

/-- `Process` on a closing input stream with no timer fire: start from an
empty batch. -/
def batchProcess (sendBatchSize : Nat) (inputs : List Span) :
    List (List Span) :=
  batchFlushesNoTimer sendBatchSize inputs []

/-! ## Attributes processor (`pkg/pipeline/processor/batch.go`, second
half) -/

/-- An attribute mutation rule. `action` is the Go `ActionType` string:
`"insert"`, `"update"`, `"upsert"` or `"delete"`. -/
structure AttributeAction where
  key : String
  value : String
  action : String
deriving DecidableEq

/-- The tag every mutation writes: `model.KeyValue{Key: action.Key, VType:
model.StringType, VStr: action.Value}` — string-typed, all other value
slots at their zero value. -/
def mkStringTag (key value : String) : KeyValue :=
  { key := key, vType := ValueType.stringType, vStr := value }

/-- `applyAction`: locate the first tag with the rule key, then insert
(only when absent), update (only when present), upsert, or delete
(`append(tags[:i], tags[i+1:]...)`, i.e. remove index `i`). Any other
action string falls through the `switch` and is a no-op. -/
def applyAction (span : Span) (action : AttributeAction) : Span :=
  let existingIdx := span.tags.findIdx? fun tag => tag.key == action.key
  if action.action = "insert" then
    match existingIdx with
    | none => { span with tags := span.tags ++ [mkStringTag action.key action.value] }
    | some _ => span
  else if action.action = "update" then
    match existingIdx with
    | some i => { span with tags := span.tags.set i (mkStringTag action.key action.value) }
    | none => span
  else if action.action = "upsert" then
    match existingIdx with
    | some i => { span with tags := span.tags.set i (mkStringTag action.key action.value) }
    | none => { span with tags := span.tags ++ [mkStringTag action.key action.value] }
  else if action.action = "delete" then
    match existingIdx with
    | some i => { span with tags := span.tags.eraseIdx i }
    | none => span
  else
    span

/-! ## Helper lemmas about the exchange sort -/

theorem minPass_fst_le (x : Int) (xs : List Int) : (minPass x xs).1 ≤ x := by
  induction xs generalizing x with
  | nil => simp [minPass]
  | cons y ys ih =>
    by_cases h : y < x
    · simp only [minPass, if_pos h]
      exact le_trans (ih y) (le_of_lt h)
    · simp only [minPass, if_neg h]
      exact ih x

theorem minPass_fst_le_mem (x : Int) (xs : List Int) :
    ∀ z ∈ (minPass x xs).2, (minPass x xs).1 ≤ z := by
  induction xs generalizing x with
  | nil => simp [minPass]
  | cons y ys ih =>
    by_cases h : y < x
    · simp only [minPass, if_pos h]
      intro z hz
      rcases List.mem_cons.mp hz with rfl | hz
      · exact le_trans (minPass_fst_le y ys) (le_of_lt h)
      · exact ih y z hz
    · simp only [minPass, if_neg h]
      intro z hz
      rcases List.mem_cons.mp hz with rfl | hz
      · exact le_trans (minPass_fst_le x ys) (not_lt.mp h)
      · exact ih x z hz

theorem minPass_perm (x : Int) (xs : List Int) :
    ((minPass x xs).1 :: (minPass x xs).2).Perm (x :: xs) := by
  induction xs generalizing x with
  | nil => simp [minPass]
  | cons y ys ih =>
    by_cases h : y < x
    · simp only [minPass, if_pos h]
      exact List.Perm.trans (List.Perm.swap x (minPass y ys).1 (minPass y ys).2)
        (List.Perm.cons x (ih y))
    · simp only [minPass, if_neg h]
      refine List.Perm.trans (List.Perm.swap y (minPass x ys).1 (minPass x ys).2) ?_
      refine List.Perm.trans (List.Perm.cons y (ih x)) ?_
      exact List.Perm.swap x y ys

theorem sortDurations_perm_aux :
    ∀ (n : Nat) (l : List Int), l.length ≤ n → (sortDurations l).Perm l := by
  intro n
  induction n with
  | zero =>
    intro l hl
    match l with
    | [] => simp [sortDurations]
  | succ n ih =>
    intro l hl
    match l with
    | [] => simp [sortDurations]
    | x :: xs =>
      rw [sortDurations]
      have hlen : (minPass x xs).2.length ≤ n := by
        rw [minPass_snd_length]
        simpa using Nat.le_of_succ_le_succ hl
      exact List.Perm.trans (List.Perm.cons _ (ih _ hlen)) (minPass_perm x xs)

theorem sortDurations_perm (l : List Int) : (sortDurations l).Perm l :=
  sortDurations_perm_aux l.length l le_rfl

theorem sortDurations_sorted_aux :
    ∀ (n : Nat) (l : List Int), l.length ≤ n →
      List.Sorted (· ≤ ·) (sortDurations l) := by
  intro n
  induction n with
  | zero =>
    intro l hl
    match l with
    | [] => simp [sortDurations]
  | succ n ih =>
    intro l hl
    match l with
    | [] => simp [sortDurations]
    | x :: xs =>
      rw [sortDurations]
      have hlen : (minPass x xs).2.length ≤ n := by
        rw [minPass_snd_length]
        simpa using Nat.le_of_succ_le_succ hl
      refine List.sorted_cons.mpr ⟨?_, ih _ hlen⟩
      intro b hb
      have hb2 : b ∈ (minPass x xs).2 :=
        (sortDurations_perm _).mem_iff.mp hb
      exact minPass_fst_le_mem x xs b hb2

theorem sortDurations_sorted (l : List Int) :
    List.Sorted (· ≤ ·) (sortDurations l) :=
  sortDurations_sorted_aux l.length l le_rfl

/-! ## Helper lemmas about the latency buffer -/

theorem recordProcessingTime_maxSamples (m : Metrics) (d : Int) :
    (m.recordProcessingTime d).maxSamples = m.maxSamples := rfl

theorem recordProcessingTime_buffer (m : Metrics) (d : Int)
    (hmax : 1 ≤ m.maxSamples) (hlen : m.processingTimes.length ≤ m.maxSamples) :
    (m.recordProcessingTime d).processingTimes =
      (m.processingTimes ++ [d]).drop
        (m.processingTimes.length + 1 - m.maxSamples) := by
  unfold Metrics.recordProcessingTime
  by_cases h : m.maxSamples ≤ m.processingTimes.length
  · have heq : m.processingTimes.length = m.maxSamples := le_antisymm hlen h
    have h1 : (m.processingTimes.drop 1).length = m.maxSamples - 1 := by
      simp [List.length_drop, heq]
    have htake : (m.processingTimes.drop 1).take (m.maxSamples - 1) =
        m.processingTimes.drop 1 := by
      rw [← h1]
      exact List.take_length _
    have hdrop : (m.processingTimes ++ [d]).drop 1 =
        m.processingTimes.drop 1 ++ [d] := by
      refine List.drop_append_of_le_length ?_
      omega
    simp only [if_pos h, htake]
    rw [show m.processingTimes.length + 1 - m.maxSamples = 1 by omega, hdrop]
  · have h0 : m.processingTimes.length + 1 - m.maxSamples = 0 := by omega
    simp [if_neg h, h0]

theorem foldl_record_buffer (ds : List Int) :
    ∀ (m : Metrics), 1 ≤ m.maxSamples →
      m.processingTimes.length ≤ m.maxSamples →
      (ds.foldl Metrics.recordProcessingTime m).processingTimes =
          (m.processingTimes ++ ds).drop
            ((m.processingTimes ++ ds).length - m.maxSamples)
        ∧ (ds.foldl Metrics.recordProcessingTime m).maxSamples = m.maxSamples := by
  induction ds with
  | nil =>
    intro m hmax hlen
    refine ⟨?_, rfl⟩
    simp only [List.foldl_nil, List.append_nil]
    rw [show m.processingTimes.length - m.maxSamples = 0 by omega]
    simp
  | cons d ds ih =>
    intro m hmax hlen
    have hstep := recordProcessingTime_buffer m d hmax hlen
    have hmax2 : (m.recordProcessingTime d).maxSamples = m.maxSamples := rfl
    have hlen2 : (m.recordProcessingTime d).processingTimes.length ≤
        (m.recordProcessingTime d).maxSamples := by
      rw [hstep, hmax2, List.length_drop]
      simp
      omega
    have := ih (m.recordProcessingTime d) (by rw [hmax2]; exact hmax) hlen2
    rcases this with ⟨hbuf, hms⟩
    constructor
    · rw [List.foldl_cons, hbuf, hstep, hmax2]
      have hk : m.processingTimes.length + 1 - m.maxSamples ≤
          (m.processingTimes ++ [d]).length := by
        simp only [List.length_append, List.length_singleton]
        omega
      have h1 : (m.processingTimes ++ [d]).drop
            (m.processingTimes.length + 1 - m.maxSamples) ++ ds =
          (m.processingTimes ++ d :: ds).drop
            (m.processingTimes.length + 1 - m.maxSamples) := by
        rw [← List.drop_append_of_le_length hk, List.append_assoc,
          List.singleton_append]
      rw [h1, List.drop_drop]
      congr 1
      simp only [List.length_drop, List.length_append, List.length_cons,
        List.length_singleton]
      omega
    · rw [List.foldl_cons, hms, hmax2]

/-! ## Helper lemmas about the batch loop -/

theorem batchFlushesNoTimer_flatten (n : Nat) (xs : List Span) :
    ∀ batch, (batchFlushesNoTimer n xs batch).flatten = batch ++ xs := by
  induction xs with
  | nil =>
    intro batch
    by_cases h : batch.isEmpty
    · simp [batchFlushesNoTimer, h, List.isEmpty_iff.mp h]
    · simp [batchFlushesNoTimer, h]
  | cons s ss ih =>
    intro batch
    rw [batchFlushesNoTimer]
    by_cases h : n ≤ (batch ++ [s]).length
    · simp only [if_pos h, List.flatten_cons, ih]
      simp
    · simp only [if_neg h, ih]
      simp

theorem batchFlushesNoTimer_single (n : Nat) (xs : List Span) :
    ∀ batch, batch.length + xs.length ≤ n → 0 < batch.length + xs.length →
      batchFlushesNoTimer n xs batch = [batch ++ xs] := by
  induction xs with
  | nil =>
    intro batch hle hpos
    have : ¬batch.isEmpty := by
      cases batch <;> simp_all
    simp [batchFlushesNoTimer, this]
  | cons s ss ih =>
    intro batch hle hpos
    rw [batchFlushesNoTimer]
    by_cases h : n ≤ (batch ++ [s]).length
    · have hss : ss = [] := by
        rw [← List.length_eq_zero]
        simp only [List.length_append, List.length_singleton] at h
        simp only [List.length_cons] at hle
        omega
      subst hss
      simp [batchFlushesNoTimer, if_pos h]
    · simp only [if_neg h]
      rw [ih (batch ++ [s]) (by simp_all; omega) (by simp)]
      simp

theorem batchFlushesNoTimer_double (n : Nat) (xs : List Span) :
    ∀ batch, batch.length < n → n < batch.length + xs.length →
      batch.length + xs.length < 2 * n →
      batchFlushesNoTimer n xs batch =
        [(batch ++ xs).take n, (batch ++ xs).drop n] := by
  induction xs with
  | nil =>
    intro batch h1 h2 h3
    simp only [List.length_nil, Nat.add_zero] at h2
    omega
  | cons s ss ih =>
    intro batch h1 h2 h3
    rw [batchFlushesNoTimer]
    by_cases h : n ≤ (batch ++ [s]).length
    · have hn : (batch ++ [s]).length = n := by
        simp only [List.length_append, List.length_singleton] at h ⊢
        omega
      have hss1 : 0 + ss.length ≤ n := by
        simp only [List.length_cons] at h3
        simp only [List.length_append, List.length_singleton] at hn
        omega
      have hss2 : 0 < (List.nil (α := Span)).length + ss.length := by
        simp only [List.length_cons] at h2
        simp only [List.length_append, List.length_singleton] at hn
        simp only [List.length_nil]
        omega
      rw [if_pos h, batchFlushesNoTimer_single n ss [] (by simpa using hss1) hss2]
      have hx : batch ++ s :: ss = (batch ++ [s]) ++ ss := by simp
      rw [hx, ← hn, List.take_left, List.drop_left]
      simp
    · simp only [if_neg h]
      rw [ih (batch ++ [s]) (by simp_all) (by simp_all; omega) (by simp_all; omega)]
      simp

theorem batchProcess_flatten (n : Nat) (inputs : List Span) :
    (batchProcess n inputs).flatten = inputs := by
  simpa using batchFlushesNoTimer_flatten n inputs []
/-! ## Claims -/

/-- Case analysis of `shouldSample` along its three priority rules. -/
theorem shouldSample_priority_cases (p : SamplingProcessor) (span : Span) :
    (p.alwaysSampleErrors = true → isError span = true →
      shouldSample p span = (true, recordSample p true))
    ∧ (¬(p.alwaysSampleErrors = true ∧ isError span = true) →
        p.slowThreshold ≤ span.duration →
        shouldSample p span = (true, recordSample p false))
    ∧ (¬(p.alwaysSampleErrors = true ∧ isError span = true) →
        span.duration < p.slowThreshold →
        shouldSample p span =
          (deterministicSample span.traceID p.adaptiveRate,
            recordSample p (isError span))) := by
  unfold shouldSample
  refine ⟨?_, ?_, ?_⟩
  · intro h1 h2
    rw [if_pos (by rw [h1, h2]; rfl)]
  · intro h1 h2
    have hc : (p.alwaysSampleErrors && isError span) = false := by
      cases hb : isError span
      · simp [hb]
      · cases ha : p.alwaysSampleErrors
        · simp [ha]
        · exact absurd ⟨ha, hb⟩ h1
    rw [if_neg (by rw [hc]; exact Bool.false_ne_true), if_pos h2]
  · intro h1 h2
    have hc : (p.alwaysSampleErrors && isError span) = false := by
      cases hb : isError span
      · simp [hb]
      · cases ha : p.alwaysSampleErrors
        · simp [ha]
        · exact absurd ⟨ha, hb⟩ h1
    rw [if_neg (by rw [hc]; exact Bool.false_ne_true), if_neg (not_le.mpr h2)]

/-- C1: for every span the sampling decision is evaluated in strict
priority order with first match wins: with always-sample-errors configured,
an error span (one carrying an error=true boolean tag or an
http.status_code int64 tag of at least 500, which is exactly what isError
tests) is kept and recorded as an error sample; otherwise a span at
or above the slow threshold is kept and recorded as a non-error sample,
even when the error tag check would also match; otherwise the adaptive rule
decides (using the adaptive rate read before the record), with the span
recorded according to its error status. -/
theorem c1_sampling_priority_order (p : SamplingProcessor) (span : Span) :
    (isError span = true ↔ ∃ tag ∈ span.tags,
      (tag.key = "error" ∧ tag.vType = ValueType.boolType ∧ tag.vBool = true)
      ∨ (tag.key = "http.status_code" ∧ tag.vType = ValueType.int64Type
          ∧ 500 ≤ tag.vInt64))
    ∧ (p.alwaysSampleErrors = true → isError span = true →
      shouldSample p span = (true, recordSample p true))
    ∧ (¬(p.alwaysSampleErrors = true ∧ isError span = true) →
        p.slowThreshold ≤ span.duration →
        shouldSample p span = (true, recordSample p false))
    ∧ (¬(p.alwaysSampleErrors = true ∧ isError span = true) →
        span.duration < p.slowThreshold →
        shouldSample p span =
          (deterministicSample span.traceID p.adaptiveRate,
            recordSample p (isError span))) := by
  refine ⟨?_, shouldSample_priority_cases p span⟩
  simp [isError, List.any_eq_true, Bool.and_eq_true, Bool.or_eq_true,
    decide_eq_true_eq, and_assoc]

/-- Witness for C1 at a concrete error span and a concrete slow span. -/
theorem c1_sampling_priority_order_witness :
    shouldSample (newSamplingProcessor 0 true 1000000000 1000)
        { traceID := { high := 1, low := 2 }, spanID := 123, duration := 50,
          tags := [{ key := "error", vType := ValueType.boolType, vBool := true }] } =
      (true, recordSample (newSamplingProcessor 0 true 1000000000 1000) true) :=
  (c1_sampling_priority_order _ _).2.1 rfl (by decide)

/-- C2: for a fixed adaptive rate the adaptive-priority decision is a
function of the low 64 bits of the trace identifier alone — two spans
agreeing there (whatever their other fields) get the same decision — and
the decision is keep iff the low half is at most the rate-scaled 64-bit
threshold. -/
theorem c2_trace_consistent_adaptive_decision (rate : ℚ) (s1 s2 : Span)
    (h : s1.traceID.low = s2.traceID.low) :
    deterministicSample s1.traceID rate = deterministicSample s2.traceID rate
    ∧ (deterministicSample s1.traceID rate = true ↔
        s1.traceID.low ≤ samplingThreshold rate) := by
  constructor
  · unfold deterministicSample
    rw [h]
  · unfold deterministicSample
    simp

/-- Witness for C2: two spans sharing a trace identifier but differing in
span identifier, operation name, duration and tags. -/
theorem c2_trace_consistent_adaptive_decision_witness :
    deterministicSample
        (Span.traceID { traceID := { high := 1, low := 42 }, spanID := 7 })
        (1 / 2) =
      deterministicSample
        (Span.traceID
          { traceID := { high := 1, low := 42 }, spanID := 8,
            operationName := "other", duration := 999,
            tags := [{ key := "error", vType := ValueType.boolType, vBool := true }] })
        (1 / 2) :=
  (c2_trace_consistent_adaptive_decision (1 / 2)
    { traceID := { high := 1, low := 42 }, spanID := 7 }
    { traceID := { high := 1, low := 42 }, spanID := 8,
      operationName := "other", duration := 999,
      tags := [{ key := "error", vType := ValueType.boolType, vBool := true }] } rfl).1

/-- C8 counterexample: with base (and adaptive) rate 0.0 and
always-sample-errors enabled, a span that is neither an error nor slow but
whose trace identifier has low half 0 is KEPT, not dropped — the adaptive
comparison is `traceID.Low <= threshold` with threshold 0, which the low
half 0 satisfies. -/
theorem c8_zero_rate_low_zero_kept_counterexample :
    isError { traceID := { high := 1, low := 0 }, spanID := 5 } = false
    ∧ ({ traceID := { high := 1, low := 0 }, spanID := 5 } : Span).duration
        < (newSamplingProcessor 0 true 1000000000 1000).slowThreshold
    ∧ (shouldSample (newSamplingProcessor 0 true 1000000000 1000)
        { traceID := { high := 1, low := 0 }, spanID := 5 }).1 = true := by
  refine ⟨by decide, by decide, ?_⟩
  show (if _ then _ else _ : Bool × SamplingProcessor).1 = true
  rw [if_neg (by decide), if_neg (by decide)]
  simp [deterministicSample]

/-- C8 amended: with adaptive rate 0.0 and always-sample-errors enabled,
every error span is kept, and every non-error span below the slow threshold
is kept exactly when its trace identifier low half is 0 (so it is dropped
for every trace identifier with a nonzero low half, but kept at low = 0). -/
theorem c8_zero_rate_amended (p : SamplingProcessor) (span : Span)
    (herr : p.alwaysSampleErrors = true) (hrate : p.adaptiveRate = 0) :
    (isError span = true → (shouldSample p span).1 = true)
    ∧ (isError span = false → span.duration < p.slowThreshold →
        ((shouldSample p span).1 = decide (span.traceID.low = 0))) := by
  constructor
  · intro hisErr
    rw [((shouldSample_priority_cases p span).1 herr hisErr : _)]
  · intro hisErr hdur
    rw [((shouldSample_priority_cases p span).2.2
      (by rw [hisErr]; simp) hdur : _)]
    rw [hrate]
    unfold deterministicSample samplingThreshold
    simp [Nat.le_zero]

/-- Witness for the amended C8: a concrete non-error fast span with a
nonzero low half, evaluated at rate 0 with always-sample-errors on. -/
theorem c8_zero_rate_amended_witness :
    (shouldSample (newSamplingProcessor 0 true 1000000000 1000)
        { traceID := { high := 1, low := 7 }, spanID := 9 }).1 =
      decide ((7 : Nat) = 0) :=
  (c8_zero_rate_amended (newSamplingProcessor 0 true 1000000000 1000)
    { traceID := { high := 1, low := 7 }, spanID := 9 } rfl rfl).2
    (by decide) (by decide)

/-- Folding `recordSample` while the window is not yet reached just
accumulates both counters, leaving the rates untouched. -/
theorem foldl_recordSample_no_trigger (bs : List Bool) :
    ∀ p : SamplingProcessor, p.recentTotal + bs.length < p.adaptiveWindow →
      bs.foldl recordSample p =
        { p with
          recentErrors := p.recentErrors + bs.count true
          recentTotal := p.recentTotal + bs.length } := by
  induction bs with
  | nil => intro p h; simp
  | cons b bs ih =>
    intro p h
    rw [List.foldl_cons]
    have hnt : ¬(p.adaptiveWindow ≤ p.recentTotal + 1) := by
      simp only [List.length_cons] at h
      omega
    have hrec : recordSample p b =
        { p with
          recentErrors := if b then p.recentErrors + 1 else p.recentErrors
          recentTotal := p.recentTotal + 1 } := by
      unfold recordSample
      rw [if_neg hnt]
    rw [hrec, ih _ (by simp only [List.length_cons] at h; simpa using by omega)]
    cases b <;>
      simp [List.count_cons, SamplingProcessor.mk.injEq] <;> omega

/-- C3: when the rolling total reaches the window, the adaptive rate is
recomputed — doubled base (capped at 1) above a 5% observed error ratio,
1.5x base (capped at 1) above 1%, the plain base otherwise — and both
counters are reset to zero; below the window the counters just accumulate.
In particular (the configuration of the spec scenario: base rate 0.1,
window 100), 50 error plus 50 non-error records drive the adaptive rate to
0.2, strictly above the base rate. -/
theorem c3_adaptive_rate_recalculation :
    (∀ (p : SamplingProcessor) (isErr : Bool),
      p.adaptiveWindow ≤ p.recentTotal + 1 →
      (recordSample p isErr).recentTotal = 0
      ∧ (recordSample p isErr).recentErrors = 0)
    ∧ (∀ (p : SamplingProcessor) (isErr : Bool),
        p.adaptiveWindow ≤ p.recentTotal + 1 →
        (5 / 100 : ℚ) <
          ((if isErr then p.recentErrors + 1 else p.recentErrors : Nat) : ℚ)
            / ((p.recentTotal + 1 : Nat) : ℚ) →
        (recordSample p isErr).adaptiveRate = goMin 1 (p.baseSampleRate * 2))
    ∧ (∀ (p : SamplingProcessor) (isErr : Bool),
        p.adaptiveWindow ≤ p.recentTotal + 1 →
        ¬((5 / 100 : ℚ) <
          ((if isErr then p.recentErrors + 1 else p.recentErrors : Nat) : ℚ)
            / ((p.recentTotal + 1 : Nat) : ℚ)) →
        (1 / 100 : ℚ) <
          ((if isErr then p.recentErrors + 1 else p.recentErrors : Nat) : ℚ)
            / ((p.recentTotal + 1 : Nat) : ℚ) →
        (recordSample p isErr).adaptiveRate =
          goMin 1 (p.baseSampleRate * (15 / 10)))
    ∧ (∀ (p : SamplingProcessor) (isErr : Bool),
        p.adaptiveWindow ≤ p.recentTotal + 1 →
        ¬((1 / 100 : ℚ) <
          ((if isErr then p.recentErrors + 1 else p.recentErrors : Nat) : ℚ)
            / ((p.recentTotal + 1 : Nat) : ℚ)) →
        (recordSample p isErr).adaptiveRate = p.baseSampleRate)
    ∧ (∀ (p : SamplingProcessor) (isErr : Bool),
        p.recentTotal + 1 < p.adaptiveWindow →
        recordSample p isErr =
          { p with
            recentErrors := if isErr then p.recentErrors + 1 else p.recentErrors
            recentTotal := p.recentTotal + 1 })
    ∧ ((List.replicate 50 true ++ List.replicate 50 false).foldl recordSample
          (newSamplingProcessor (1 / 10) true 1000000000 100)).adaptiveRate
        = 1 / 5
    ∧ (newSamplingProcessor (1 / 10) true 1000000000 100).baseSampleRate <
        ((List.replicate 50 true ++ List.replicate 50 false).foldl recordSample
          (newSamplingProcessor (1 / 10) true 1000000000 100)).adaptiveRate
    ∧ ((List.replicate 50 true ++ List.replicate 50 false).foldl recordSample
          (newSamplingProcessor (1 / 10) true 1000000000 100)).recentTotal = 0
    ∧ ((List.replicate 50 true ++ List.replicate 50 false).foldl recordSample
          (newSamplingProcessor (1 / 10) true 1000000000 100)).recentErrors
        = 0 := by
  have hconc :
      (List.replicate 50 true ++ List.replicate 50 false).foldl recordSample
          (newSamplingProcessor (1 / 10) true 1000000000 100) =
        { newSamplingProcessor (1 / 10) true 1000000000 100 with
          recentErrors := 0, recentTotal := 0, adaptiveRate := 1 / 5 } := by
    have hl : (List.replicate 50 true ++ List.replicate 50 false) =
        (List.replicate 50 true ++ List.replicate 49 false) ++ [false] := by
      rw [List.append_assoc]
      congr 1
    rw [hl, List.foldl_append,
      foldl_recordSample_no_trigger
        (List.replicate 50 true ++ List.replicate 49 false)
        (newSamplingProcessor (1 / 10) true 1000000000 100)
        (by simp [newSamplingProcessor])]
    simp only [List.foldl_cons, List.foldl_nil]
    unfold recordSample
    norm_num [newSamplingProcessor, goMin, SamplingProcessor.mk.injEq,
      List.count_replicate]
  refine ⟨?_, ?_, ?_, ?_, ?_, ?_, ?_, ?_, ?_⟩
  · intro p isErr htrig
    unfold recordSample
    rw [if_pos htrig]
    exact ⟨rfl, rfl⟩
  · intro p isErr htrig h5
    unfold recordSample
    rw [if_pos htrig]
    simp only [if_pos h5]
  · intro p isErr htrig h5 h1
    unfold recordSample
    rw [if_pos htrig]
    simp only [if_neg h5, if_pos h1]
  · intro p isErr htrig h1
    have h5 : ¬((5 / 100 : ℚ) <
        ((if isErr then p.recentErrors + 1 else p.recentErrors : Nat) : ℚ)
          / ((p.recentTotal + 1 : Nat) : ℚ)) := by
      intro h
      exact h1 (lt_trans (by norm_num) h)
    unfold recordSample
    rw [if_pos htrig]
    simp only [if_neg h5, if_neg h1]
  · intro p isErr hlt
    unfold recordSample
    rw [if_neg (by omega)]
  · rw [hconc]
  · rw [hconc]
    show (1 : ℚ) / 10 < 1 / 5
    norm_num
  · rw [hconc]
  · rw [hconc]

/-- C4: the health status is unhealthy iff a critical threshold is reached,
else degraded iff a warning threshold is reached, else healthy; and with
the default thresholds a 6% drop rate is unhealthy, a 2% drop rate is
degraded, and a 0.1% drop rate with a 0% error rate is healthy. -/
theorem c4_health_status_thresholds :
    (∀ (t : HealthThresholds) (s : MetricsSnapshot),
      (determineStatus t s = HealthStatus.unhealthy ↔
        t.dropRateCritical ≤ s.dropRate ∨ t.errorRateCritical ≤ s.errorRate)
      ∧ (determineStatus t s = HealthStatus.degraded ↔
          ¬(t.dropRateCritical ≤ s.dropRate ∨ t.errorRateCritical ≤ s.errorRate)
          ∧ (t.dropRateWarning ≤ s.dropRate ∨ t.errorRateWarning ≤ s.errorRate))
      ∧ (determineStatus t s = HealthStatus.healthy ↔
          ¬(t.dropRateCritical ≤ s.dropRate ∨ t.errorRateCritical ≤ s.errorRate)
          ∧ ¬(t.dropRateWarning ≤ s.dropRate ∨ t.errorRateWarning ≤ s.errorRate)))
    ∧ determineStatus defaultHealthCheckConfig
        { spansReceived := 100, spansProcessed := 0, spansDropped := 6,
          spansExported := 0, exportErrors := 0 } = HealthStatus.unhealthy
    ∧ determineStatus defaultHealthCheckConfig
        { spansReceived := 100, spansProcessed := 0, spansDropped := 2,
          spansExported := 0, exportErrors := 0 } = HealthStatus.degraded
    ∧ determineStatus defaultHealthCheckConfig
        { spansReceived := 1000, spansProcessed := 0, spansDropped := 1,
          spansExported := 0, exportErrors := 0 } = HealthStatus.healthy := by
  refine ⟨?_, ?_, ?_, ?_⟩
  · intro t s
    simp only [determineStatus]
    split_ifs with h1 h2 <;> simp_all
  · norm_num [determineStatus, defaultHealthCheckConfig,
      MetricsSnapshot.dropRate, MetricsSnapshot.errorRate]
  · norm_num [determineStatus, defaultHealthCheckConfig,
      MetricsSnapshot.dropRate, MetricsSnapshot.errorRate]
  · norm_num [determineStatus, defaultHealthCheckConfig,
      MetricsSnapshot.dropRate, MetricsSnapshot.errorRate]

/-- C5: a snapshot copies the five counters; with an empty buffer all three
percentiles are the zero duration; with a non-empty buffer the percentiles
are read, without interpolation, at ranks `len/2`, `⌊len*95/100⌋` and
`⌊len*99/100⌋` of the ascending sort of the buffer (a true sort: ordered
and a permutation of the buffer); and the state-passing form returns the
live engine state unchanged (the sort runs on a copy). -/
theorem c5_snapshot_percentiles (m : Metrics) :
    ((m.snapshot).spansReceived = m.spansReceived
      ∧ (m.snapshot).spansProcessed = m.spansProcessed
      ∧ (m.snapshot).spansDropped = m.spansDropped
      ∧ (m.snapshot).spansExported = m.spansExported
      ∧ (m.snapshot).exportErrors = m.exportErrors)
    ∧ (m.processingTimes = [] →
        (m.snapshot).latencyP50 = 0 ∧ (m.snapshot).latencyP95 = 0
          ∧ (m.snapshot).latencyP99 = 0)
    ∧ (m.processingTimes ≠ [] →
        List.Sorted (· ≤ ·) (sortDurations m.processingTimes)
        ∧ (sortDurations m.processingTimes).Perm m.processingTimes
        ∧ (m.snapshot).latencyP50 =
            (sortDurations m.processingTimes).getD
              (m.processingTimes.length / 2) 0
        ∧ (m.snapshot).latencyP95 =
            (sortDurations m.processingTimes).getD
              (m.processingTimes.length * 95 / 100) 0
        ∧ (m.snapshot).latencyP99 =
            (sortDurations m.processingTimes).getD
              (m.processingTimes.length * 99 / 100) 0)
    ∧ (m.snapshotS).2 = m := by
  have hlen : (sortDurations m.processingTimes).length =
      m.processingTimes.length := (sortDurations_perm _).length_eq
  refine ⟨?_, ?_, ?_, rfl⟩
  · unfold Metrics.snapshot
    split_ifs <;> exact ⟨rfl, rfl, rfl, rfl, rfl⟩
  · intro h
    unfold Metrics.snapshot
    rw [if_neg (by simp [h])]
    exact ⟨rfl, rfl, rfl⟩
  · intro h
    have hpos : 0 < m.processingTimes.length := List.length_pos.mpr h
    refine ⟨sortDurations_sorted _, sortDurations_perm _, ?_, ?_, ?_⟩ <;>
      · unfold Metrics.snapshot
        rw [if_pos hpos]
        simp [hlen]

/-- C6: starting from a fresh engine, the latency buffer never exceeds the
capacity 1000 after any sequence of recordings; a full buffer evicts its
oldest sample by a shift-left before appending (strict FIFO); and after
1001 pairwise-distinct recordings the first recorded value is no longer in
the buffer. -/
theorem c6_latency_buffer_fifo_bound (ds : List Int) :
    ((ds.foldl Metrics.recordProcessingTime newMetrics).processingTimes.length
        ≤ 1000)
    ∧ (∀ (m : Metrics) (d : Int), 1 ≤ m.maxSamples →
        m.processingTimes.length = m.maxSamples →
        (m.recordProcessingTime d).processingTimes =
          m.processingTimes.drop 1 ++ [d])
    ∧ (∀ (v : Int) (tail : List Int), ds = v :: tail → ds.Nodup →
        tail.length = 1000 →
        v ∉ (ds.foldl Metrics.recordProcessingTime newMetrics).processingTimes) := by
  refine ⟨?_, ?_, ?_⟩
  · have h := (foldl_record_buffer ds newMetrics (by norm_num [newMetrics])
      (by simp [newMetrics])).1
    rw [h, List.length_drop]
    simp only [newMetrics, List.nil_append]
    omega
  · intro m d h1 h2
    have hstep := recordProcessingTime_buffer m d h1 (le_of_eq h2)
    rw [hstep, h2, show m.maxSamples + 1 - m.maxSamples = 1 by omega,
      List.drop_append_of_le_length (by omega)]
  · intro v tail hds hnd hlen
    subst hds
    have h := (foldl_record_buffer (v :: tail) newMetrics
      (by norm_num [newMetrics]) (by simp [newMetrics])).1
    rw [h]
    have hidx : ((newMetrics.processingTimes ++ v :: tail).length
        - newMetrics.maxSamples) = 1 := by
      simp [newMetrics, hlen]
    rw [hidx]
    simp only [newMetrics, List.nil_append, List.drop_succ_cons, List.drop_zero]
    exact (List.nodup_cons.mp hnd).1

/-- C7: on a closing input stream with no timer fire, the batch stage
forwards every span in original order partitioned into flushes; 1500 spans
with send size 1024 come out as exactly two flushes, the first 1024 spans
and the remaining 476, in order. -/
theorem c7_batch_flush_partition (inputs : List Span) :
    (batchProcess 1024 inputs).flatten = inputs
    ∧ (inputs.length = 1500 →
        batchProcess 1024 inputs = [inputs.take 1024, inputs.drop 1024]) := by
  constructor
  · exact batchProcess_flatten 1024 inputs
  · intro h
    have hd := batchFlushesNoTimer_double 1024 inputs []
      (by simp) (by simp [h]) (by simp [h])
    simpa [batchProcess] using hd

/-- C10: every tag a mutation rule writes (insert, update or upsert) is the
string-typed tag built from the rule's key and configured value — any tag
of the result is either an original tag or that string tag — and update or
upsert on a present key replaces the whole existing tag (whatever its
original type) by the string-typed tag at the same position. -/
theorem c10_attribute_writes_string_typed :
    (∀ (span : Span) (action : AttributeAction),
      action.action = "insert" ∨ action.action = "update"
        ∨ action.action = "upsert" →
      ∀ t ∈ (applyAction span action).tags,
        t ∈ span.tags ∨ t = mkStringTag action.key action.value)
    ∧ (∀ (span : Span) (action : AttributeAction) (i : Nat),
        action.action = "update" ∨ action.action = "upsert" →
        (span.tags.findIdx? fun tag => tag.key == action.key) = some i →
        (applyAction span action).tags =
          span.tags.set i (mkStringTag action.key action.value)) := by
  constructor
  · intro span action hact t ht
    unfold applyAction at ht
    rcases hact with h | h | h
    · rw [if_pos h] at ht
      cases hidx : span.tags.findIdx? fun tag => tag.key == action.key with
      | none =>
        rw [hidx] at ht
        simp only [List.mem_append, List.mem_singleton] at ht
        exact ht
      | some i =>
        rw [hidx] at ht
        exact Or.inl ht
    · rw [if_neg (by rw [h]; decide), if_pos h] at ht
      cases hidx : span.tags.findIdx? fun tag => tag.key == action.key with
      | none =>
        rw [hidx] at ht
        exact Or.inl ht
      | some i =>
        rw [hidx] at ht
        exact List.mem_or_eq_of_mem_set ht
    · rw [if_neg (by rw [h]; decide), if_neg (by rw [h]; decide),
        if_pos h] at ht
      cases hidx : span.tags.findIdx? fun tag => tag.key == action.key with
      | none =>
        rw [hidx] at ht
        simp only [List.mem_append, List.mem_singleton] at ht
        exact ht
      | some i =>
        rw [hidx] at ht
        exact List.mem_or_eq_of_mem_set ht
  · intro span action i hact hidx
    unfold applyAction
    rcases hact with h | h
    · rw [if_neg (by rw [h]; decide), if_pos h, hidx]
    · rw [if_neg (by rw [h]; decide), if_neg (by rw [h]; decide),
        if_pos h, hidx]
